import Mathlib

/-!
Verification of the canvas pixel-filter engine of this repository
(`CanvasManipulator` in `src/main.js`, lines 1201-1423).

The engine operates on `ImageData` objects: a `width`, a `height` and a flat
`Uint8ClampedArray` of RGBA bytes.  We embed the byte array as `List Nat`
(every stored value is in `[0,255]`; reads out of range yield the JS
`undefined`, which every arithmetic use turns into `NaN` and every
`Uint8ClampedArray` store turns into `0` - we model such reads as `0`, and
note at each spot where this matters that the inputs in play never read out
of range).  Writes past the end of a `Uint8ClampedArray` are silently
dropped, which `List.set` mirrors exactly.

JS numeric subtleties are embedded exactly where they are reachable:
`Uint8ClampedArray` stores round to nearest with ties to even after clamping
to `[0,255]`; `Math.round` rounds half up.  Each modelling comment below
derives the integer formula used.
-/

namespace CanvasToolkit

/-- An `ImageData` value as handed to `_processFilter`: dimensions plus the
flat row-major RGBA byte array. -/
structure ImageData where
  width : Nat
  height : Nat
  data : List Nat
  deriving Repr, DecidableEq

/-- The `options` object of `_processFilter`, with the source's default
values (`radius = 1`, `size = 10`, `intensity = 0.1`).  The glitch filter's
`Math.random()` draws are modelled by the explicit stream `rand`: one triple
`(y, glitchWidth, offset)` per glitch iteration, standing for the three
draws `Math.floor(Math.random()*height)`, `Math.floor(Math.random()*width*0.2)`
and `Math.floor(Math.random()*width*0.1)` of that iteration. -/
structure Options where
  radius : Nat := 1
  size : Nat := 10
  intensity : ℚ := 1/10
  rand : List (Nat × Nat × Nat) := []
  deriving Repr

/-- Read a byte of the flat array: in-range reads return the stored byte;
an out-of-range read is JS `undefined`, which the surrounding arithmetic and
the final clamped store turn into `0`. -/
def byteAt (d : List Nat) (i : Nat) : Nat := d.getD i 0

/-- The byte stored when a `Uint8ClampedArray` element is assigned the exact
rational quotient `total / count` (arising from `result[i] = r / count` in
`_blurFilter`): clamp to `[0,255]`, then round to nearest with ties to even.
For the magnitudes in play (`total ≤ 255 * count`, `count ≤ (2r+1)²`) the
double-precision quotient is never closer to a half-integer than the exact
one, so rounding the exact rational is faithful.  `count = 0` is unreachable
(the centre sample always contributes). -/
def roundHalfEven (total count : Nat) : Nat :=
  if count = 0 then 0
  else if 2 * (total % count) < count then total / count
  else if count < 2 * (total % count) then total / count + 1
  else if (total / count) % 2 = 0 then total / count else total / count + 1

/-- `Math.round(total / count)` on the exact rational quotient: round half
up, i.e. `⌊total/count + 1/2⌋ = (2*total + count) / (2*count)`.  Used by
`_pixelateFilter`; `count = 0` is unreachable for `size ≥ 1`. -/
def roundHalfUp (total count : Nat) : Nat :=
  if count = 0 then 0 else (2 * total + count) / (2 * count)

/-- The in-place loop of `_grayscaleFilter`:
`for (i = 0; i < data.length; i += 4) { avg = (data[i]+data[i+1]+data[i+2])/3;
 data[i] = data[i+1] = data[i+2] = avg; }`.
The clamped store of `avg` is `min 255 (round((r+g+b)/3))`; since
`(r+g+b)/3` is never exactly a half-integer, round-to-nearest is
`(r+g+b+1)/3` in `Nat` division.  A trailing chunk of fewer than 4 bytes
(impossible for a genuine `ImageData`, but the loop guard is
`i < data.length`) behaves as in JS: a 3-byte tail still has all three
summands, a 1- or 2-byte tail sums `undefined` into `NaN` and stores `0`. -/
def grayData : List Nat → List Nat
  | r :: g :: b :: a :: rest =>
      let v := min 255 ((r + g + b + 1) / 3)
      v :: v :: v :: a :: grayData rest
  | [r, g, b] =>
      let v := min 255 ((r + g + b + 1) / 3)
      [v, v, v]
  | [_, _] => [0, 0]
  | [_] => [0]
  | [] => []

/-- `_grayscaleFilter(imageData)`: mutates `imageData.data` in place and
returns `imageData`. -/
def grayscaleFilter (img : ImageData) : ImageData :=
  { img with data := grayData img.data }

/-- The in-range neighbour coordinates visited by a clipped window loop
`for (d = -radius; d <= radius; d++) { n = center + d; if (n >= 0 && n < bound) ... }`,
re-indexed by `d+radius ∈ [0, 2*radius]` so that `n = center + d - radius`
with the `n ≥ 0` test becoming `radius ≤ center + d`. -/
def clippedRange (center radius bound : Nat) : List Nat :=
  (List.range (2 * radius + 1)).filterMap fun d =>
    if radius ≤ center + d ∧ center + d < bound + radius
    then some (center + d - radius) else none

/-- One output byte of `_blurFilter` at pixel `(x, y)`, channel `c` (alpha is
averaged exactly like the colour channels): the window sums `r,g,b,a` and
`count` of the source, then `result[i+c] = sum / count` stored clamped. -/
def blurByte (data : List Nat) (w h radius x y c : Nat) : Nat :=
  let xs := clippedRange x radius w
  let ys := clippedRange y radius h
  let count := xs.length * ys.length
  let total := (ys.map fun ny => (xs.map fun nx =>
    byteAt data ((ny * w + nx) * 4 + c)).sum).sum
  min 255 (roundHalfEven total count)

/-- `_blurFilter`'s output array: the source allocates
`result = new Uint8ClampedArray(data.length)` (zero-filled), writes position
`(y*width + x)*4 + c` for every `x < width`, `y < height`, `c < 4` exactly
once (writes past `data.length` are dropped by the typed array), then copies
`result` over `data`.  Pointwise: index `i` decodes as pixel `i/4`
(`x = (i/4) % width`, `y = (i/4) / width`), channel `i % 4`; indices not
covered by the loops keep their zero fill. -/
def blurData (data : List Nat) (w h radius : Nat) : List Nat :=
  (List.range data.length).map fun i =>
    if i < 4 * (w * h) then
      blurByte data w h radius ((i / 4) % w) ((i / 4) / w) (i % 4)
    else 0

/-- `_blurFilter(imageData, { radius = 1 })`. -/
def blurFilter (img : ImageData) (radius : Nat) : ImageData :=
  { img with data := blurData img.data img.width img.height radius }

/-- The sharpen kernel `[0,-1,0,-1,5,-1,0,-1,0]` of `_sharpenFilter`. -/
def kernel : List Int := [0, -1, 0, -1, 5, -1, 0, -1, 0]

/-- The convolution sum of `_sharpenFilter` for colour channel `c` of interior
pixel `(x, y)` (so `x, y ≥ 1`): `Σ_{ky,kx∈[-1,1]} data[((y+ky)w + x+kx)*4+c] * kernel[(ky+1)*3+(kx+1)]`,
re-indexed by `ky+1, kx+1 ∈ [0,2]`.  All reads are in range for a genuine
buffer, so the sum is an exact integer. -/
def sharpenConv (data : List Nat) (w x y c : Nat) : Int :=
  ((List.range 3).map fun ky =>
    ((List.range 3).map fun kx =>
      kernel.getD (ky * 3 + kx) 0 *
        (byteAt data (((y + ky - 1) * w + (x + kx - 1)) * 4 + c) : Int)).sum).sum

/-- `_sharpenFilter`'s output array: zero-filled `result` of `data.length`;
the loops `for (y = 1; y < height-1; y++) for (x = 1; x < width-1; x++)`
write only interior pixels - colour channels get the clamped convolution
`Math.min(255, Math.max(0, r))`, alpha is copied from the source - and then
`result` is copied over the whole of `data`, so every non-interior position
(borders included) becomes `0`. -/
def sharpenData (data : List Nat) (w h : Nat) : List Nat :=
  (List.range data.length).map fun i =>
    let x := (i / 4) % w
    let y := (i / 4) / w
    if i < 4 * (w * h) ∧ 1 ≤ x ∧ x + 1 < w ∧ 1 ≤ y ∧ y + 1 < h then
      if i % 4 = 3 then byteAt data i
      else (min 255 (max 0 (sharpenConv data w x y (i % 4)))).toNat
    else 0

/-- `_sharpenFilter(imageData)`. -/
def sharpenFilter (img : ImageData) : ImageData :=
  { img with data := sharpenData img.data img.width img.height }

/-- The horizontal Sobel kernel of `_edgeDetectionFilter`. -/
def sobelX : List Int := [-1, 0, 1, -2, 0, 2, -1, 0, 1]

/-- The vertical Sobel kernel of `_edgeDetectionFilter`. -/
def sobelY : List Int := [-1, -2, -1, 0, 0, 0, 1, 2, 1]

/-- Three times the gradient accumulator of `_edgeDetectionFilter` at
interior pixel `(x, y)`: the source accumulates `val * k[kIdx]` with
`val = (data[idx]+data[idx+1]+data[idx+2])/3`; we track the exact integer
`3*g = Σ (r+g+b) * k[kIdx]`. -/
def sobelAcc (k : List Int) (data : List Nat) (w x y : Nat) : Int :=
  ((List.range 3).map fun ky =>
    ((List.range 3).map fun kx =>
      k.getD (ky * 3 + kx) 0 *
        ((byteAt data (((y + ky - 1) * w + (x + kx - 1)) * 4)
          + byteAt data (((y + ky - 1) * w + (x + kx - 1)) * 4 + 1)
          + byteAt data (((y + ky - 1) * w + (x + kx - 1)) * 4 + 2) : Nat) : Int)).sum).sum

/-- The stored magnitude byte of `_edgeDetectionFilter`:
`magnitude = Math.min(255, Math.sqrt(gx*gx + gy*gy))` stored clamped-rounded.
With `gx3 = 3*gx`, `gy3 = 3*gy` exact integers and `S = gx3² + gy3²`, the
real magnitude is `√S/3`; it is never exactly a half-integer
(`4S = (6k+3)²` is impossible), and the double computation stays far from
every half-integer boundary, so the store is `round(√S/3)` capped at `255`:
`round(√S/3) = ⌊(√(4S)+3)/6⌋ = (Nat.sqrt (4S) + 3) / 6`. -/
def edgeMagnitude (gx3 gy3 : Int) : Nat :=
  min 255 ((Nat.sqrt (4 * (gx3 ^ 2 + gy3 ^ 2)).toNat + 3) / 6)

/-- `_edgeDetectionFilter`'s output array: same zero-filled/interior-only
write pattern as `_sharpenFilter` (colour channels get the shared magnitude,
alpha is copied), then `result` is copied over the whole of `data`. -/
def edgeData (data : List Nat) (w h : Nat) : List Nat :=
  (List.range data.length).map fun i =>
    let x := (i / 4) % w
    let y := (i / 4) / w
    if i < 4 * (w * h) ∧ 1 ≤ x ∧ x + 1 < w ∧ 1 ≤ y ∧ y + 1 < h then
      if i % 4 = 3 then byteAt data i
      else edgeMagnitude (sobelAcc sobelX data w x y) (sobelAcc sobelY data w x y)
    else 0

/-- `_edgeDetectionFilter(imageData)`. -/
def edgeFilter (img : ImageData) : ImageData :=
  { img with data := edgeData img.data img.width img.height }

/-- One output byte of `_pixelateFilter` at pixel `(x, y)`, channel `c`: the
pixel's block has origin `(x/size*size, y/size*size)`; the block loops
`for (dy = 0; dy < size && y+dy < height; dy++)` (and likewise for `dx`)
sum all block bytes and count them, and every pixel of the block receives
`Math.round(sum / count)`, stored clamped. -/
def blockByte (data : List Nat) (w h size x y c : Nat) : Nat :=
  let bx := x / size * size
  let yb := y / size * size
  let xs := (List.range size).filterMap fun dx =>
    if bx + dx < w then some (bx + dx) else none
  let ys := (List.range size).filterMap fun dy =>
    if yb + dy < h then some (yb + dy) else none
  let count := xs.length * ys.length
  let total := (ys.map fun ny => (xs.map fun nx =>
    byteAt data ((ny * w + nx) * 4 + c)).sum).sum
  min 255 (roundHalfUp total count)

/-- `_pixelateFilter`'s output array: the block loops cover every pixel
`x < width`, `y < height` exactly once (blocks partition the image), writing
into the zero-filled `result` which is then copied over `data`.  Caution:
this definition is total, but the source loops `y += size` / `x += size`
never terminate for `size = 0` on a buffer with `height ≥ 1` - the program
then neither returns nor throws - so the model is faithful only for
`size ≥ 1`, and every statement about pixelate output assumes `1 ≤ size`
(the spec's `blockSize ≥ 1` validity invariant). -/
def pixelateData (data : List Nat) (w h size : Nat) : List Nat :=
  (List.range data.length).map fun i =>
    if i < 4 * (w * h) then
      blockByte data w h size ((i / 4) % w) ((i / 4) / w) (i % 4)
    else 0

/-- `_pixelateFilter(imageData, { size = 10 })`. -/
def pixelateFilter (img : ImageData) (size : Nat) : ImageData :=
  { img with data := pixelateData img.data img.width img.height size }

/-- One scanline-displacement iteration of `_glitchFilter`, with the
iteration's three random draws given as `(y, gw, off)`:
`for (x = 0; x < width - glitchWidth; x++)` copies the 4 bytes of source
pixel `(x, y)` onto `result` pixel `((x + offset) % width, y)` (reads are
always from the original `data`). -/
def glitchPass (data : List Nat) (w : Nat) (result : List Nat)
    (t : Nat × Nat × Nat) : List Nat :=
  (List.range (w - t.2.1)).foldl (fun res x =>
    (List.range 4).foldl (fun r j =>
      r.set ((t.1 * w + (x + t.2.2) % w) * 4 + j)
        (byteAt data ((t.1 * w + x) * 4 + j))) res) result

/-- `_glitchFilter`'s output array: `result` starts as a copy of `data`;
`numGlitches = Math.floor(height * intensity)` scanline passes run
sequentially consuming the random stream; then the colour-channel shift
(`channelOffset = Math.floor(width * 0.02)`, modelled as `width*2/100`)
writes, for every pixel with `x < width - channelOffset`, the red byte
`result[i] = data[i + channelOffset*4]` - each such index once, reading the
original `data`, so the pass is pointwise over `result`. -/
def glitchData (data : List Nat) (w h : Nat) (intensity : ℚ)
    (rand : List (Nat × Nat × Nat)) : List Nat :=
  let numGlitches := (Int.floor ((h : ℚ) * intensity)).toNat
  let result1 := (rand.take numGlitches).foldl (glitchPass data w) data
  let channelOffset := w * 2 / 100
  (List.range result1.length).map fun i =>
    if i < 4 * (w * h) ∧ i % 4 = 0 ∧ (i / 4) % w + channelOffset < w then
      byteAt data (i + channelOffset * 4)
    else byteAt result1 i

/-- `_glitchFilter(imageData, { intensity = 0.1 })`. -/
def glitchFilter (img : ImageData) (intensity : ℚ)
    (rand : List (Nat × Nat × Nat)) : ImageData :=
  { img with data := glitchData img.data img.width img.height intensity rand }

/-- `_processFilter(imageData, filterType, options)`: the `filters` object
literal maps exactly the six names below to filter functions;
`if (filters[filterType]) return filters[filterType](imageData, options);
return imageData;`.  This definition models the dispatch for the six own
keys and for every name that misses the whole prototype chain (where JS
`filters[filterType]` is `undefined`, falsy, and the fall-through returns
`imageData`).  Names inherited from `Object.prototype` (e.g. `"toString"`)
make `filters[filterType]` truthy in JS and behave differently; that part of
the lookup is captured by `processFilterJS` below. -/
def processFilter (img : ImageData) (filterType : String) (opts : Options) :
    ImageData :=
  match filterType with
  | "grayscale" => grayscaleFilter img
  | "blur" => blurFilter img opts.radius
  | "sharpen" => sharpenFilter img
  | "edge" => edgeFilter img
  | "pixelate" => pixelateFilter img opts.size
  | "glitch" => glitchFilter img opts.intensity opts.rand
  | _ => img

/-- Errors the spec's `applyFilter` contract names.  The source of
`applyFilter` / `_processFilter` contains no validation and no `throw`
whatsoever, so the fallible view of the dispatch below never produces one. -/
inductive FilterError where
  | invalidDimension
  deriving Repr, DecidableEq

/-- `applyFilter` / `_processFilter` as a fallible computation: the source
has no throw site and performs no buffer/dimension check, so the translation
is total and always returns `Except.ok` of the dispatched result.  (The only
runtime exception any call of `_processFilter` can produce is the
`TypeError` of the inherited-member lookup modelled by `processFilterJS`; no
code path examines dimensions, so no path can produce an
`InvalidDimensionError`.) -/
def processFilterE (img : ImageData) (filterType : String) (opts : Options) :
    Except FilterError ImageData :=
  Except.ok (processFilter img filterType opts)

/-- The value categories a call `filters[filterType](imageData, options)`
can produce in JS: an `ImageData` buffer, a string, a boolean, `undefined`,
or some other object (the `filters` dictionary itself, returned by
`valueOf`). -/
inductive JSValue where
  | buffer (img : ImageData)
  | str (s : String)
  | bool (b : Bool)
  | undef
  | object
  deriving Repr, DecidableEq

/-- The runtime exception the dispatch can raise: calling a non-callable
inherited member, or passing a non-callable accessor, throws `TypeError`. -/
inductive JSError where
  | typeError
  deriving Repr, DecidableEq

deriving instance DecidableEq for Except

/-- The member names an object literal inherits from `Object.prototype`:
for these, `filters[filterType]` is a truthy inherited value even though the
literal has only the six filter keys. -/
def objectPrototypeMembers : List String :=
  ["constructor", "hasOwnProperty", "isPrototypeOf", "propertyIsEnumerable",
   "toLocaleString", "toString", "valueOf", "__defineGetter__",
   "__defineSetter__", "__lookupGetter__", "__lookupSetter__", "__proto__"]

/-- `_processFilter` with the JS member lookup modelled faithfully: bracket
lookup on the `filters` object literal walks the prototype chain, so a
`filterType` naming an `Object.prototype` member finds a truthy value and
`filters[filterType](imageData, options)` is invoked with `this = filters`:
- `"constructor"` calls `Object(imageData, options)`, which returns its
  object argument - the input buffer, unchanged;
- `"hasOwnProperty"` / `"isPrototypeOf"` / `"propertyIsEnumerable"` return
  `false` (the literal has no own property keyed by the stringified buffer,
  and `filters` is not in the buffer's prototype chain);
- `"toLocaleString"` / `"toString"` return the string `"[object Object]"`;
- `"valueOf"` returns `this`, the `filters` object itself;
- `"__defineGetter__"` / `"__defineSetter__"` throw `TypeError` (the
  `options` argument is not callable);
- `"__lookupGetter__"` / `"__lookupSetter__"` return `undefined`;
- `"__proto__"` reads as `Object.prototype`, truthy but not callable, so the
  call throws `TypeError`.
The six own keys are disjoint from these member names (own properties would
shadow inherited ones anyway), so matching the inherited names first and
deferring everything else to `processFilter` - own keys dispatch to their
filter, all remaining names miss the whole chain and fall through to the
input buffer - is exactly the JS behaviour. -/
def processFilterJS (img : ImageData) (filterType : String) (opts : Options) :
    Except JSError JSValue :=
  match filterType with
  | "constructor" => Except.ok (JSValue.buffer img)
  | "hasOwnProperty" => Except.ok (JSValue.bool false)
  | "isPrototypeOf" => Except.ok (JSValue.bool false)
  | "propertyIsEnumerable" => Except.ok (JSValue.bool false)
  | "toLocaleString" => Except.ok (JSValue.str "[object Object]")
  | "toString" => Except.ok (JSValue.str "[object Object]")
  | "valueOf" => Except.ok JSValue.object
  | "__defineGetter__" => Except.error JSError.typeError
  | "__defineSetter__" => Except.error JSError.typeError
  | "__lookupGetter__" => Except.ok JSValue.undef
  | "__lookupSetter__" => Except.ok JSValue.undef
  | "__proto__" => Except.error JSError.typeError
  | _ => Except.ok (JSValue.buffer (processFilter img filterType opts))

/-! ### Concrete buffers used by the spec's concrete scenarios -/

/-- The 3×3 buffer of the spec's EdgeDetect scenario: a single white centre
pixel `(255,255,255,255)` surrounded by eight black `(0,0,0,255)` pixels. -/
def b3 : ImageData :=
  ⟨3, 3, [0, 0, 0, 255, 0, 0, 0, 255, 0, 0, 0, 255,
          0, 0, 0, 255, 255, 255, 255, 255, 0, 0, 0, 255,
          0, 0, 0, 255, 0, 0, 0, 255, 0, 0, 0, 255]⟩

/-- The 4×4 checkerboard of the spec's Pixelate scenario: alternating white
`(255,255,255,255)` and black `(0,0,0,255)` 1×1 pixels (white where `x+y`
is even). -/
def board : ImageData :=
  ⟨4, 4, [255, 255, 255, 255, 0, 0, 0, 255, 255, 255, 255, 255, 0, 0, 0, 255,
          0, 0, 0, 255, 255, 255, 255, 255, 0, 0, 0, 255, 255, 255, 255, 255,
          255, 255, 255, 255, 0, 0, 0, 255, 255, 255, 255, 255, 0, 0, 0, 255,
          0, 0, 0, 255, 255, 255, 255, 255, 0, 0, 0, 255, 255, 255, 255, 255]⟩

/-! ### Helper lemmas -/

lemma getD_mapRange (f : Nat → Nat) (n i : Nat) :
    ((List.range n).map f).getD i 0 = if i < n then f i else 0 := by
  rcases Nat.lt_or_ge i n with h | h
  · rw [List.getD_eq_getElem?_getD, List.getElem?_map, List.getElem?_range h]
    simp [h]
  · rw [List.getD_eq_getElem?_getD, List.getElem?_map,
      List.getElem?_eq_none (by simpa using h)]
    simp [Nat.not_lt.mpr h]

lemma mapRange_getD_self (l : List Nat) :
    (List.range l.length).map (fun i => l.getD i 0) = l := by
  apply List.ext_getElem
  · simp
  · intro i h1 h2
    simp [List.getD_eq_getElem?_getD, List.getElem?_eq_getElem h2]

lemma grayData_length (l : List Nat) : (grayData l).length = l.length := by
  induction l using grayData.induct <;> simp [grayData, *]

lemma grayData_idem (l : List Nat) : grayData (grayData l) = grayData l := by
  induction l using grayData.induct with
  | case1 r g b a rest ih =>
      simp only [grayData, ih, List.cons.injEq, and_true, true_and]
      omega
  | case2 r g b =>
      simp only [grayData, List.cons.injEq, and_true, true_and]
      omega
  | case3 => simp [grayData]
  | case4 => simp [grayData]
  | case5 => simp [grayData]

lemma foldl_length_eq {α : Type} (f : List Nat → α → List Nat)
    (hf : ∀ l a, (f l a).length = l.length) :
    ∀ (as : List α) (l : List Nat), (as.foldl f l).length = l.length := by
  intro as
  induction as with
  | nil => intro l; rfl
  | cons a as ih =>
      intro l
      rw [List.foldl_cons, ih, hf]

lemma glitchPass_length (data : List Nat) (w : Nat) (res : List Nat)
    (t : Nat × Nat × Nat) : (glitchPass data w res t).length = res.length := by
  unfold glitchPass
  apply foldl_length_eq
  intro l x
  apply foldl_length_eq
  intro l2 j
  exact List.length_set l2 _ _

lemma small_no_interior (w h x y : Nat) (hwh : w < 3 ∨ h < 3) :
    ¬(1 ≤ x ∧ x + 1 < w ∧ 1 ≤ y ∧ y + 1 < h) := by omega

lemma roundHalfEven_one (t : Nat) : roundHalfEven t 1 = t := by
  simp [roundHalfEven, Nat.mod_one, Nat.div_one]

lemma clippedRange_zero (center bound : Nat) (h : center < bound) :
    clippedRange center 0 bound = [center] := by
  have h1 : List.range 1 = [0] := rfl
  simp [clippedRange, h1, h]

lemma processFilter_fallthrough (img : ImageData) (ft : String)
    (opts : Options) (h1 : ft ≠ "grayscale") (h2 : ft ≠ "blur")
    (h3 : ft ≠ "sharpen") (h4 : ft ≠ "edge") (h5 : ft ≠ "pixelate")
    (h6 : ft ≠ "glitch") :
    processFilter img ft opts = img := by
  unfold processFilter
  split <;> simp_all

/-! ### Claim theorems -/

/-- C1 (counterexample): the claim says that applying a filter to a buffer
whose width or height is 0, or whose data length differs from
`width*height*4`, fails with an `InvalidDimensionError`.  At the concrete
malformed buffer `⟨0, 0, [0,0,0,255]⟩` (zero dimensions AND mismatched
length), `_processFilter` with the `grayscale` filter returns a result
(`Except.ok`), refuting the claim: the source performs no validation. -/
theorem processFilter_zero_dims_not_error :
    processFilterE ⟨0, 0, [0, 0, 0, 255]⟩ "grayscale" {} =
      Except.ok ⟨0, 0, [0, 0, 0, 255]⟩ := rfl

/-- C1 (amended): `applyFilter`/`_processFilter` perform no dimension
validation at all: for every malformed buffer (zero width or height, or data
length different from `width*height*4`), every filter type and every option
set, the dispatch returns a result and never raises `InvalidDimensionError`. -/
theorem processFilter_malformed_returns_ok (img : ImageData) (ft : String)
    (opts : Options)
    (hbad : img.width = 0 ∨ img.height = 0 ∨
      img.data.length ≠ 4 * (img.width * img.height)) :
    ∃ out, processFilterE img ft opts = Except.ok out :=
  ⟨processFilter img ft opts, rfl⟩

/-- C1 (witness): the amended theorem applied at a concrete malformed buffer
(height 0, so the dimension hypothesis holds). -/
theorem processFilter_malformed_returns_ok_witness :
    ∃ out, processFilterE ⟨5, 0, []⟩ "blur" {} = Except.ok out :=
  processFilter_malformed_returns_ok ⟨5, 0, []⟩ "blur" {}
    (Or.inr (Or.inl rfl))

/-- C3 (counterexample): the claim says EdgeDetect on the white-centre /
black-neighbours 3×3 buffer produces `R=G=B=255` at the interior pixel
`(1,1)` (flat bytes 16..18).  In fact both Sobel gradients cancel by
symmetry (the centre weight of both kernels is 0 and every neighbour is
black), so the stored channels are not 255. -/
theorem edge_white_center_not_max :
    (edgeFilter b3).data.getD 16 0 ≠ 255 ∧
    (edgeFilter b3).data.getD 17 0 ≠ 255 ∧
    (edgeFilter b3).data.getD 18 0 ≠ 255 := by decide

/-- C3 (amended): on the white-centre 3×3 buffer, EdgeDetect produces at the
single interior pixel `(1,1)` the value `R=G=B=0` with the original alpha
255: the symmetric neighbourhood makes `gx = gy = 0`, so the magnitude is 0,
the minimal - not the maximal - clamped value. -/
theorem edge_white_center_zero :
    (edgeFilter b3).data.getD 16 0 = 0 ∧
    (edgeFilter b3).data.getD 17 0 = 0 ∧
    (edgeFilter b3).data.getD 18 0 = 0 ∧
    (edgeFilter b3).data.getD 19 0 = 255 := by decide

/-- C5: the Grayscale filter is idempotent - applying it twice yields the
same buffer as applying it once.  After one pass every pixel has
`R = G = B = v ≤ 255`, and the second pass stores
`min 255 (round((v+v+v)/3)) = v`; the odd trailing-chunk cases (never hit by
a genuine `ImageData`) are idempotent as well, so no validity hypothesis is
needed. -/
theorem grayscale_idempotent (img : ImageData) :
    grayscaleFilter (grayscaleFilter img) = grayscaleFilter img := by
  obtain ⟨w, h, d⟩ := img
  simp [grayscaleFilter, grayData_idem]

/-- C6 (counterexample): the claim says every filter kind outside the six
recognized names returns the input buffer unchanged with no error.  The
kind `"toString"` is not among the six, yet the JS member lookup finds the
inherited `Object.prototype.toString` (truthy), and the dispatch returns the
string `"[object Object]"` - not the buffer; the kind `"__proto__"` finds
the non-callable `Object.prototype` and the call raises a `TypeError`. -/
theorem processFilter_inherited_names_violate :
    processFilterJS ⟨1, 1, [1, 2, 3, 4]⟩ "toString" {} =
      Except.ok (JSValue.str "[object Object]") ∧
    processFilterJS ⟨1, 1, [1, 2, 3, 4]⟩ "toString" {} ≠
      Except.ok (JSValue.buffer ⟨1, 1, [1, 2, 3, 4]⟩) ∧
    processFilterJS ⟨1, 1, [1, 2, 3, 4]⟩ "__proto__" {} =
      Except.error JSError.typeError := by decide

/-- C6 (amended): for every buffer and every filter kind that is neither one
of the six recognized names nor a member name inherited from
`Object.prototype`, the dispatch returns the input buffer unchanged and
raises no error (`filters[filterType]` is `undefined`, falsy, and
`_processFilter` falls through to `return imageData`). -/
theorem processFilter_unknown_id (img : ImageData) (ft : String)
    (opts : Options) (h1 : ft ≠ "grayscale") (h2 : ft ≠ "blur")
    (h3 : ft ≠ "sharpen") (h4 : ft ≠ "edge") (h5 : ft ≠ "pixelate")
    (h6 : ft ≠ "glitch") (h7 : ft ∉ objectPrototypeMembers) :
    processFilterJS img ft opts = Except.ok (JSValue.buffer img) := by
  unfold processFilterJS
  split <;> try (simp_all [objectPrototypeMembers])
  rw [processFilter_fallthrough img ft opts h1 h2 h3 h4 h5 h6]

/-- C6 (witness): the unrecognized, non-inherited kind `"sepia"` leaves a
concrete buffer unchanged. -/
theorem processFilter_unknown_id_witness :
    processFilterJS ⟨1, 1, [1, 2, 3, 4]⟩ "sepia" {} =
      Except.ok (JSValue.buffer ⟨1, 1, [1, 2, 3, 4]⟩) :=
  processFilter_unknown_id ⟨1, 1, [1, 2, 3, 4]⟩ "sepia" {} (by decide)
    (by decide) (by decide) (by decide) (by decide) (by decide) (by decide)

/-- C8: Pixelate with `blockSize = 2` on the 4×4 black/white checkerboard
produces the buffer in which every pixel is `(128, 128, 128, 255)`: each
2×2 tile holds two white and two black pixels, so the per-tile colour mean
is `510/4 = 127.5`, which `Math.round` rounds half-up to 128 (within the
claim's `{127, 128}`), the alpha mean is exactly 255, and the rounded mean
is replicated over the whole tile - so in particular every 2×2 tile is
uniform gray as claimed. -/
theorem pixelate_checkerboard_gray :
    (pixelateFilter board 2).data =
      [128, 128, 128, 255, 128, 128, 128, 255, 128, 128, 128, 255,
       128, 128, 128, 255, 128, 128, 128, 255, 128, 128, 128, 255,
       128, 128, 128, 255, 128, 128, 128, 255, 128, 128, 128, 255,
       128, 128, 128, 255, 128, 128, 128, 255, 128, 128, 128, 255,
       128, 128, 128, 255, 128, 128, 128, 255, 128, 128, 128, 255,
       128, 128, 128, 255] := by decide

/-- C2 (counterexample): the claim says Sharpen and EdgeDetect leave every
outermost-row/column pixel unchanged.  On the all-white 3×3 buffer, the
corner pixel `(0,0)` has input byte 255 but output byte 0 under both
filters: the zero-filled `result` array is copied over the whole buffer by
`imageData.data.set(result)`, including the border the interior loops never
wrote. -/
theorem sharpen_edge_border_not_preserved :
    (sharpenFilter ⟨3, 3, List.replicate 36 255⟩).data.getD 0 0 = 0 ∧
    (edgeFilter ⟨3, 3, List.replicate 36 255⟩).data.getD 0 0 = 0 ∧
    (⟨3, 3, List.replicate 36 255⟩ : ImageData).data.getD 0 0 = 255 := by
  decide

/-- C2 (amended): rather than leaving them unchanged, Sharpen and EdgeDetect
set every channel of every border pixel (row 0, last row, column 0, last
column) to 0 - only interior pixels receive computed values; a border pixel
keeps its input value only when that value is already 0. -/
theorem sharpen_edge_border_zeroed (img : ImageData) (x y c : Nat)
    (hlen : img.data.length = 4 * (img.width * img.height))
    (hx : x < img.width) (hy : y < img.height) (hc : c < 4)
    (hb : x = 0 ∨ y = 0 ∨ x = img.width - 1 ∨ y = img.height - 1) :
    (sharpenFilter img).data.getD ((y * img.width + x) * 4 + c) 0 = 0 ∧
    (edgeFilter img).data.getD ((y * img.width + x) * 4 + c) 0 = 0 := by
  obtain ⟨w, h, d⟩ := img
  dsimp only at hlen hx hy hb ⊢
  have hpix : y * w + x < w * h := by
    have hlt : y * w + x < (y + 1) * w := by
      rw [Nat.succ_mul]; omega
    calc y * w + x < (y + 1) * w := hlt
      _ ≤ h * w := Nat.mul_le_mul_right w hy
      _ = w * h := Nat.mul_comm h w
  have hiw : (y * w + x) * 4 + c < 4 * (w * h) := by omega
  have hdec4 : ((y * w + x) * 4 + c) / 4 = y * w + x := by omega
  have hcomm : y * w + x = x + y * w := by ring
  have hxx : (((y * w + x) * 4 + c) / 4) % w = x := by
    rw [hdec4, hcomm, Nat.add_mul_mod_self_right]
    exact Nat.mod_eq_of_lt hx
  have hyy : (((y * w + x) * 4 + c) / 4) / w = y := by
    rw [hdec4, hcomm, Nat.add_mul_div_right _ _ (by omega : 0 < w),
      Nat.div_eq_of_lt hx]
    omega
  constructor
  · show (sharpenData d w h).getD ((y * w + x) * 4 + c) 0 = 0
    unfold sharpenData
    rw [getD_mapRange, if_pos (by omega), if_neg]
    rintro ⟨-, h1, h2, h3, h4⟩
    rw [hxx] at h1 h2
    rw [hyy] at h3 h4
    omega
  · show (edgeData d w h).getD ((y * w + x) * 4 + c) 0 = 0
    unfold edgeData
    rw [getD_mapRange, if_pos (by omega), if_neg]
    rintro ⟨-, h1, h2, h3, h4⟩
    rw [hxx] at h1 h2
    rw [hyy] at h3 h4
    omega

/-- C2 (witness): the amended theorem applied to the all-white 3×3 buffer at
the border pixel `(0, 0)`, channel 0. -/
theorem sharpen_edge_border_zeroed_witness :
    (sharpenFilter ⟨3, 3, List.replicate 36 255⟩).data.getD 0 0 = 0 ∧
    (edgeFilter ⟨3, 3, List.replicate 36 255⟩).data.getD 0 0 = 0 :=
  sharpen_edge_border_zeroed ⟨3, 3, List.replicate 36 255⟩ 0 0 0 (by decide)
    (by decide) (by decide) (by decide) (Or.inl rfl)

/-- C9: for every buffer with no interior pixel (width < 3 or height < 3),
Sharpen and EdgeDetect zero the entire buffer - every R, G, B and alpha byte:
the interior loops write nothing, and the freshly allocated zero-filled
`result` is copied over the whole of `data`. -/
theorem sharpen_edge_small_all_zero (img : ImageData)
    (hwh : img.width < 3 ∨ img.height < 3) :
    (sharpenFilter img).data = List.replicate img.data.length 0 ∧
    (edgeFilter img).data = List.replicate img.data.length 0 := by
  obtain ⟨w, h, d⟩ := img
  dsimp only at hwh ⊢
  constructor
  · apply List.ext_getElem
    · simp [sharpenFilter, sharpenData]
    · intro i h1 h2
      simp only [sharpenFilter, sharpenData, List.getElem_map,
        List.getElem_range, List.getElem_replicate]
      rw [if_neg]
      rintro ⟨-, hcond⟩
      exact small_no_interior w h _ _ hwh hcond
  · apply List.ext_getElem
    · simp [edgeFilter, edgeData]
    · intro i h1 h2
      simp only [edgeFilter, edgeData, List.getElem_map,
        List.getElem_range, List.getElem_replicate]
      rw [if_neg]
      rintro ⟨-, hcond⟩
      exact small_no_interior w h _ _ hwh hcond

/-- C9 (witness): a 1×1 buffer with nonzero bytes is zeroed entirely by both
filters. -/
theorem sharpen_edge_small_all_zero_witness :
    (sharpenFilter ⟨1, 1, [7, 8, 9, 255]⟩).data = List.replicate 4 0 ∧
    (edgeFilter ⟨1, 1, [7, 8, 9, 255]⟩).data = List.replicate 4 0 :=
  sharpen_edge_small_all_zero ⟨1, 1, [7, 8, 9, 255]⟩ (Or.inl (by decide))

/-- C4: for every valid buffer (data length = `width*height*4`) and every
filter kind with valid parameters, the dispatched filter returns a buffer
with the same `width` and `height` whose data length equals
`width*height*4`.  The only parameter hypothesis needed is `blockSize ≥ 1`
(the source's `_pixelateFilter` loops `y += size` forever for `size = 0`, so
the embedding is only meaningful there); the glitch branch holds for every
intensity and every random stream. -/
theorem processFilter_preserves_dims (img : ImageData) (ft : String)
    (opts : Options)
    (hlen : img.data.length = 4 * (img.width * img.height))
    (hsize : 1 ≤ opts.size) :
    (processFilter img ft opts).width = img.width ∧
    (processFilter img ft opts).height = img.height ∧
    (processFilter img ft opts).data.length = 4 * (img.width * img.height) := by
  obtain ⟨w, h, d⟩ := img
  dsimp only at hlen ⊢
  unfold processFilter
  split
  · exact ⟨rfl, rfl, by simpa [grayscaleFilter, grayData_length] using hlen⟩
  · exact ⟨rfl, rfl, by simpa [blurFilter, blurData] using hlen⟩
  · exact ⟨rfl, rfl, by simpa [sharpenFilter, sharpenData] using hlen⟩
  · exact ⟨rfl, rfl, by simpa [edgeFilter, edgeData] using hlen⟩
  · exact ⟨rfl, rfl, by simpa [pixelateFilter, pixelateData] using hlen⟩
  · refine ⟨rfl, rfl, ?_⟩
    simp only [glitchFilter, glitchData, List.length_map, List.length_range]
    rw [foldl_length_eq (glitchPass d w) (glitchPass_length d w)]
    exact hlen
  · exact ⟨rfl, rfl, hlen⟩

/-- C4 (witness): the dimension-preservation theorem at a concrete 1×1
buffer with the pixelate filter (default `size = 10 ≥ 1`). -/
theorem processFilter_preserves_dims_witness :
    (processFilter ⟨1, 1, [1, 2, 3, 4]⟩ "pixelate" {}).width = 1 ∧
    (processFilter ⟨1, 1, [1, 2, 3, 4]⟩ "pixelate" {}).height = 1 ∧
    (processFilter ⟨1, 1, [1, 2, 3, 4]⟩ "pixelate" {}).data.length = 4 :=
  processFilter_preserves_dims ⟨1, 1, [1, 2, 3, 4]⟩ "pixelate" {}
    (by decide) (by decide)

/-- C7: Blur with `radius = 0` is the identity transform: the clipped window
degenerates to the single centre sample, so `count = 1` and every output
byte (alpha included) is `min 255 (round(b/1)) = b` for the stored byte
`b ≤ 255`.  The hypotheses state that the input is a genuine RGBA buffer:
correct data length and byte-sized entries. -/
theorem blur_radius_zero_id (img : ImageData)
    (hlen : img.data.length = 4 * (img.width * img.height))
    (hbytes : ∀ b ∈ img.data, b ≤ 255) :
    blurFilter img 0 = img := by
  obtain ⟨w, h, d⟩ := img
  dsimp only at hlen hbytes ⊢
  simp only [blurFilter, ImageData.mk.injEq, true_and]
  apply List.ext_getElem
  · simp [blurData]
  · intro i h1 h2
    simp only [blurData, List.getElem_map, List.getElem_range]
    have hiw : i < 4 * (w * h) := by omega
    rw [if_pos hiw]
    have hw : 0 < w := by
      rcases Nat.eq_zero_or_pos w with h0 | h0
      · subst h0; simp at hiw
      · exact h0
    have hx : (i / 4) % w < w := Nat.mod_lt _ hw
    have hy : (i / 4) / w < h := by
      apply Nat.div_lt_of_lt_mul
      omega
    simp only [blurByte, clippedRange_zero _ _ hx, clippedRange_zero _ _ hy,
      List.map_cons, List.map_nil, List.sum_cons, List.sum_nil,
      List.length_cons, List.length_nil, Nat.add_zero, Nat.zero_add,
      Nat.mul_one, roundHalfEven_one]
    have hidx : ((i / 4) / w * w + (i / 4) % w) * 4 + i % 4 = i := by
      have e1 : w * ((i / 4) / w) + (i / 4) % w = i / 4 := Nat.div_add_mod _ _
      rw [Nat.mul_comm ((i / 4) / w) w, e1]
      omega
    rw [hidx]
    have hbi : byteAt d i = d[i] := by
      simp [byteAt, List.getD_eq_getElem?_getD, List.getElem?_eq_getElem h2]
    rw [hbi]
    exact Nat.min_eq_right (hbytes _ (List.getElem_mem h2))

/-- C7 (witness): blur with radius 0 at a concrete 1×1 buffer. -/
theorem blur_radius_zero_id_witness :
    blurFilter ⟨1, 1, [10, 20, 30, 255]⟩ 0 = ⟨1, 1, [10, 20, 30, 255]⟩ :=
  blur_radius_zero_id ⟨1, 1, [10, 20, 30, 255]⟩ (by decide) (by decide)

/-- C10: when `⌊height * intensity⌋ = 0` (no scanline displacement runs) and
`width ≤ 49` (so `channelOffset = ⌊width * 0.02⌋ = 0` and the red-channel
shift copies each red byte onto itself from the original data), the Glitch
filter is the identity for every random stream - a deterministic result that
no random draw influences. -/
theorem glitch_small_identity (img : ImageData) (intensity : ℚ)
    (rand : List (Nat × Nat × Nat))
    (hng : Int.floor ((img.height : ℚ) * intensity) = 0)
    (hw : img.width ≤ 49) :
    glitchFilter img intensity rand = img := by
  obtain ⟨w, h, d⟩ := img
  dsimp only at hng hw ⊢
  simp only [glitchFilter, ImageData.mk.injEq, true_and]
  simp only [glitchData]
  rw [hng]
  have hco : w * 2 / 100 = 0 := Nat.div_eq_of_lt (by omega)
  rw [hco]
  simp only [Int.toNat_zero, List.take_zero, List.foldl_nil, Nat.add_zero,
    Nat.zero_mul, ite_self]
  simpa only [byteAt] using mapRange_getD_self d

/-- C10 (witness): the glitch identity at a concrete 2×2 buffer with the
default intensity `0.1` (`⌊2 * 0.1⌋ = 0`) and a nonempty random stream. -/
theorem glitch_small_identity_witness :
    glitchFilter ⟨2, 2, [1, 2, 3, 4, 5, 6, 7, 8, 9, 10, 11, 12, 13, 14, 15, 16]⟩
        (1/10) [(1, 1, 1)] =
      ⟨2, 2, [1, 2, 3, 4, 5, 6, 7, 8, 9, 10, 11, 12, 13, 14, 15, 16]⟩ :=
  glitch_small_identity ⟨2, 2, [1, 2, 3, 4, 5, 6, 7, 8, 9, 10, 11, 12, 13, 14, 15, 16]⟩
    (1/10) [(1, 1, 1)] (by norm_num [Int.floor_eq_iff]) (by decide)

end CanvasToolkit
